import Mathlib

/-!
# A shallow embedding of the `tlv` codec (`decode.go`) and a spec-modelled encoder

The decoder below is a direct translation of `decode.go`.  A byte stream is a
`List Nat` of byte values, consumed left to right; the stateful `io.Reader`
becomes explicit state passing: every reading function returns its result
together with the remaining stream.  Go's in-place mutation of `reflect.Value`
becomes functions that return the updated value next to an optional error, so
that partial mutation before a failure is preserved exactly as in the source.

Parts of the repository that are not in `decode.go` or the test file
(`encode.go`, the `Reader` with `Peek`, and `parseTag`) are modelled from the
spec; each such definition carries a doc comment starting with
`Modelled from the spec:`.
-/

namespace TLV

/-- Errors of the codec.  `packetTooLarge`, `notSupported` and
`unexpectedType` are the three error values declared in `decode.go`;
`io` stands for any error propagated from the underlying byte source
(`io.EOF` / `io.ErrUnexpectedEOF` from `io.ReadFull`); `nilPanic` marks the
place where the Go source would dereference a nil pointer inside
`UnmarshalBinary` (a runtime panic, modelled as a distinguished error);
`outOfFuel` is a modelling artifact: the recursion budget of the fueled
decoder ran out, which never happens for an adequate budget. -/
inductive Err where
  | packetTooLarge
  | notSupported
  | unexpectedType
  | io
  | nilPanic
  | outOfFuel
  deriving DecidableEq, Repr

/-- `maxSize` from `decode.go`: the maximum accepted TLV record length. -/
def maxSize : Nat := 8800

/-- Big-endian reassembly of a byte sequence, as done by
`binary.BigEndian.Uint16/Uint32/Uint64` on payloads of the matching length. -/
def beUint (bs : List Nat) : Nat := bs.foldl (fun a b => a * 256 + b) 0

/-- `io.ReadFull` on a list-backed source: reads exactly `n` bytes.  On a
short source it consumes everything that is available and reports the
stream error, exactly like `io.ReadFull` (which returns the partial read
together with `io.ErrUnexpectedEOF`/`io.EOF`). -/
def readFull (n : Nat) (bs : List Nat) : Except Err (List Nat) × List Nat :=
  if n ≤ bs.length then (.ok (bs.take n), bs.drop n) else (.error .io, [])

/-- `readVarNum` from `decode.go`: reads the first byte; `0xFF` is followed
by an 8-byte big-endian value, `0xFE` by a 4-byte one, `0xFD` by a 2-byte
one, and any other first byte is the value itself.  Stream errors from
`io.ReadFull` are returned unchanged. -/
def readVarNum : List Nat → Except Err Nat × List Nat
  | [] => (.error .io, [])
  | b :: bs =>
    if b = 255 then
      match readFull 8 bs with
      | (.ok w, rest) => (.ok (beUint w), rest)
      | (.error e, rest) => (.error e, rest)
    else if b = 254 then
      match readFull 4 bs with
      | (.ok w, rest) => (.ok (beUint w), rest)
      | (.error e, rest) => (.error e, rest)
    else if b = 253 then
      match readFull 2 bs with
      | (.ok w, rest) => (.ok (beUint w), rest)
      | (.error e, rest) => (.error e, rest)
    else (.ok b, bs)

/-- Modelled from the spec: the Peekable `Reader`'s `Peek` (the `Reader`
implementation is not under `src/`).  It returns the type number of the next
TLV record without consuming anything; any failure to read a type number
(end of stream included) is treated as "no match", which the spec describes
as returning a sentinel distinguishable from the expected type. -/
def peek (bs : List Nat) : Option Nat :=
  match (readVarNum bs).1 with
  | .ok t => some t
  | .error _ => none

/-- `readTLV` from `decode.go`: type `VarNum`, length `VarNum`, then — only
if the declared length is within `maxSize` — exactly `length` payload bytes.
A length above `maxSize` yields `ErrPacketTooLarge` before any payload byte
is read. -/
def readTLV (bs : List Nat) : Except Err (Nat × List Nat) × List Nat :=
  match readVarNum bs with
  | (.error e, bs1) => (.error e, bs1)
  | (.ok t, bs1) =>
    match readVarNum bs1 with
    | (.error e, bs2) => (.error e, bs2)
    | (.ok l, bs2) =>
      if maxSize < l then (.error .packetTooLarge, bs2)
      else
        match readFull l bs2 with
        | (.ok v, rest) => (.ok (t, v), rest)
        | (.error e, rest) => (.error e, rest)

/-- `decodeUint64` from `decode.go`: payloads of length 8, 4, 2 or 1 are
reassembled big-endian; every other length falls through the `switch` and
returns `0` (no error). -/
def decodeUint64 (b : List Nat) : Nat :=
  if b.length = 8 then beUint b
  else if b.length = 4 then beUint b
  else if b.length = 2 then beUint b
  else if b.length = 1 then beUint b
  else 0

/-- The result of `parseTag`: the wire type number plus the `optional` and
`implicit` markers, as consumed by `decodeStruct`. -/
structure Tag where
  typ : Nat
  optional : Bool
  implicit : Bool
  deriving DecidableEq, Repr

/-- Modelled from the spec: `parseTag` (the tag parser is not under `src/`).
A struct field carries either a parsed descriptor (`some tag`) or no `tlv`
tag at all (`none`).  A field without a `tlv` tag is treated as implicit:
the reference test's unexported, untagged field must be skipped by both
directions, and `decodeStruct` skips a field only when its parsed tag is
implicit, so the parser must map a missing tag to an implicit descriptor. -/
def tagOf : Option Tag → Tag
  | some t => t
  | none => ⟨0, false, true⟩

/-! ## The value model

A `Shape` is the static Go type of a value as seen by `reflect`: exactly the
kinds that `decodeValue` dispatches on.  `[]byte` (a slice whose element kind
is `uint8`) is its own constructor `bytes`, matching the dedicated branch in
the source; `slice` is every other slice type.  `special` is the struct type
from `encode_test.go` with a single exported, untagged field `F uint8` and
`MarshalBinary`/`UnmarshalBinary` declared on `\x2aspecial` (pointer
receiver); `ptrSpecial` is the pointer type `\x2aspecial`.  By Go's method
set rules only `ptrSpecial` implements `encoding.BinaryUnmarshaler`. -/

mutual
inductive Shape where
  | bool
  | uint64
  | uint8
  | bytes
  | str
  | slice (elem : Shape)
  | ptr (elem : Shape)
  | strct (fields : ShapeFields)
  | special
  | ptrSpecial
  deriving DecidableEq, Repr
inductive ShapeFields where
  | nil
  | cons (tag : Option Tag) (sh : Shape) (rest : ShapeFields)
  deriving DecidableEq, Repr
end

/-! A runtime value, mirroring an addressable `reflect.Value` of the
corresponding shape.  `slice` and `ptr` carry their static element shape
(needed by `reflect.New` when the decoder allocates); `strct` carries the
field descriptors next to the field values (the result of `parseTag` on each
field); `ptrSpecial` carries the referent's `F` field when non-nil. -/
mutual
inductive Value where
  | bool (b : Bool)
  | uint64 (n : Nat)
  | uint8 (n : Nat)
  | bytes (bs : List Nat)
  | str (s : List Nat)
  | slice (elem : Shape) (elems : ValueList)
  | ptr (elem : Shape) (ref : OptValue)
  | strct (fields : ValueFields)
  | special (f : Nat)
  | ptrSpecial (ref : Option Nat)
  deriving DecidableEq, Repr
inductive OptValue where
  | none
  | some (v : Value)
  deriving DecidableEq, Repr
inductive ValueList where
  | nil
  | cons (v : Value) (rest : ValueList)
  deriving DecidableEq, Repr
inductive ValueFields where
  | nil
  | cons (tag : Option Tag) (v : Value) (rest : ValueFields)
  deriving DecidableEq, Repr
end

mutual
/-- The zero `reflect.Value` of a shape, as produced by `reflect.New`. -/
def zero : Shape → Value
  | .bool => .bool false
  | .uint64 => .uint64 0
  | .uint8 => .uint8 0
  | .bytes => .bytes []
  | .str => .str []
  | .slice e => .slice e .nil
  | .ptr e => .ptr e .none
  | .strct fs => .strct (zeroFields fs)
  | .special => .special 0
  | .ptrSpecial => .ptrSpecial none
def zeroFields : ShapeFields → ValueFields
  | .nil => .nil
  | .cons tag sh rest => .cons tag (zero sh) (zeroFields rest)
end

/-- `reflect.Append`: append one element to a slice's element list. -/
def ValueList.append : ValueList → Value → ValueList
  | .nil, v => .cons v .nil
  | .cons a rest, v => .cons a (rest.append v)

/-- The `UnmarshalBinary` of `special` from `encode_test.go`: when the input
is exactly one byte, `F` becomes that byte; otherwise `F` is unchanged. -/
def specialUnmarshalBinary (b : List Nat) (f : Nat) : Nat :=
  match b with
  | [x] => x
  | _ => f

/-- The loop-continuation test at the bottom of `decode` in `decode.go`:
the loop continues only for slice values whose element kind is not `uint8`
(`value.Kind() == reflect.Slice && value.Type().Elem().Kind() != reflect.Uint8`,
negated in the source's `break` condition).  `[]byte` values are the
`Value.bytes` constructor, so `slice` here always continues except for the
degenerate `slice .uint8` shape, which Go would treat as `[]byte`. -/
def isRepeated : Value → Bool
  | .slice .uint8 _ => false
  | .slice _ _ => true
  | _ => false

/-! ## The decoder

`decodeLoop`, `decodeValue` and `decodeStruct` translate `decode`,
`decodeValue` and `decodeStruct` from `decode.go`.  `decodeLoop` makes the
source's `for` loop with its `once` flag explicit as tail recursion; `decode`
is the loop entered with `once = false`, exactly the body of the Go
function.  The mutual recursion is made structural with a fuel parameter
decremented on every call of a function of the block; with an adequate
budget the `outOfFuel` branches are unreachable.  Every function returns the
updated value (and, for the stream-consuming ones, the remaining stream)
next to the optional error, because the Go source mutates its
`reflect.Value` and its `Reader` in place even on error paths. -/

mutual
/-- `decode` from `decode.go` as explicit tail recursion.  One iteration:
compare `buf.Peek()` with the expected type (a failed peek never matches);
consume one record with `readTLV`; decode its payload into the value; then
loop only for repeated (non-byte slice) values.  Any break with an error
after at least one successful iteration (`once`) clears the error. -/
def decodeLoop : Nat → List Nat → Value → Nat → Bool → Option Err × Value × List Nat
  | 0, bs, value, _, _ => (some .outOfFuel, value, bs)
  | fuel + 1, bs, value, t, once =>
    if peek bs ≠ some t then
      (if once then none else some .unexpectedType, value, bs)
    else
      match readTLV bs with
      | (.error e, bs') => (if once then none else some e, value, bs')
      | (.ok (_, v), bs') =>
        match decodeValue fuel v value with
        | (some e, value') => (if once then none else some e, value', bs')
        | (none, value') =>
          if isRepeated value' then decodeLoop fuel bs' value' t true
          else (none, value', bs')

/-- `decodeValue` from `decode.go`.  The first step of the source asserts
`value.Interface()` to `encoding.BinaryUnmarshaler`; among the shapes of
this development only `\x2aspecial` values satisfy that assertion, because
`special` declares `UnmarshalBinary` with a pointer receiver, so the method
set of the value type `special` does not contain it.  The remaining cases
follow the source's `switch value.Kind()`: `special` has kind `Struct` and
therefore falls into the struct branch, whose single field `F` carries no
`tlv` tag; `uint8` values hit the `default` branch (`ErrNotSupported`). -/
def decodeValue : Nat → List Nat → Value → Option Err × Value
  | 0, _, value => (some .outOfFuel, value)
  | fuel + 1, v, value =>
    match value with
    | .ptrSpecial ref =>
      -- `r.UnmarshalBinary(v)` on the `\x2aspecial` pointer: when `len(v) == 1`
      -- it writes `v[0]` through the pointer (a nil pointer panics there);
      -- otherwise it leaves the referent alone.  It never returns an error.
      if v.length = 1 then
        match ref with
        | some _ => (none, .ptrSpecial (some (v.headD 0)))
        | none => (some .nilPanic, value)
      else (none, value)
    | .bool _ => (none, .bool true)
    | .uint64 _ => (none, .uint64 (decodeUint64 v))
    | .uint8 _ => (some .notSupported, value)
    | .bytes _ => (none, .bytes v)
    | .str _ => (none, .str v)
    | .slice e es =>
      match decodeValue fuel v (zero e) with
      | (some err, _) => (some err, .slice e es)
      | (none, elem) => (none, .slice e (es.append elem))
    | .ptr e ref =>
      -- the `reflect.Ptr` case: the values this traversal reaches are
      -- settable, so the source's `value.CanSet()` branch runs: allocate a
      -- fresh zero referent, decode into it, and store it on success.
      match decodeValue fuel v (zero e) with
      | (some err, _) => (some err, .ptr e ref)
      | (none, elem) => (none, .ptr e (.some elem))
    | .strct fields =>
      match decodeStruct fuel v fields with
      | (err?, fields', _) => (err?, .strct fields')
    | .special f =>
      -- kind `Struct`: `decodeStruct(NewReader(bytes.NewReader(v)), value)`
      -- over the one untagged field `F uint8` of `special`.
      match decodeStruct fuel v (.cons none (.uint8 f) .nil) with
      | (err?, .cons _ (.uint8 m) _, _) => (err?, .special m)
      | (err?, _, _) => (err?, .special f)

/-- `decodeStruct` from `decode.go`: walk the fields in declaration order;
skip a field whose parsed tag is implicit; otherwise run `decode` against
the field's type number; on failure of an optional field drop the error and
continue, on failure of a required field abort with that error. -/
def decodeStruct : Nat → List Nat → ValueFields → Option Err × ValueFields × List Nat
  | 0, bs, fields => (some .outOfFuel, fields, bs)
  | fuel + 1, bs, fields =>
    match fields with
    | .nil => (none, .nil, bs)
    | .cons tag v rest =>
      let tg := tagOf tag
      if tg.implicit then
        match decodeStruct fuel bs rest with
        | (err?, rest', bs') => (err?, .cons tag v rest', bs')
      else
        match decodeLoop fuel bs v tg.typ false with
        | (some e, v', bs') =>
          if tg.optional then
            match decodeStruct fuel bs' rest with
            | (err?, rest', bs'') => (err?, .cons tag v' rest', bs'')
          else (some e, .cons tag v' rest, bs')
        | (none, v', bs') =>
          match decodeStruct fuel bs' rest with
          | (err?, rest', bs'') => (err?, .cons tag v' rest', bs'')
end

/-- `decode` from `decode.go`: the loop of `decodeLoop` entered with
`once = false`. -/
def decode (fuel : Nat) (bs : List Nat) (value : Value) (t : Nat) :
    Option Err × Value × List Nat :=
  decodeLoop fuel bs value t false

/-- `Unmarshal` from `decode.go`: decode from the stream into the value
(already dereferenced by `reflect.Indirect`) under the given outer type. -/
def Unmarshal (fuel : Nat) (bs : List Nat) (value : Value) (valType : Nat) :
    Option Err × Value × List Nat :=
  decode fuel bs value valType

/-! ## The encoder, modelled from the spec

`encode.go` is not under `src/`; the definitions below follow the spec's
shape table (section 4.4) and wire format (section 6). -/

/-- The `n` big-endian bytes of `v`'s low `8 * n` bits. -/
def beBytes : Nat → Nat → List Nat
  | 0, _ => []
  | n + 1, v => beBytes n (v / 256) ++ [v % 256]

/-- Modelled from the spec: `encodeVarNum` (section 4.1 / 6; `encode.go` is
not under `src/`).  The canonical narrowest form: the literal byte for
values up to 252, otherwise marker `0xFD`/`0xFE`/`0xFF` followed by the
2/4/8 big-endian bytes. -/
def encodeVarNum (v : Nat) : List Nat :=
  if v ≤ 252 then [v]
  else if v ≤ 65535 then 253 :: beBytes 2 v
  else if v ≤ 4294967295 then 254 :: beBytes 4 v
  else 255 :: beBytes 8 v

/-- One TLV record: type `VarNum`, length `VarNum`, payload. -/
def tlvRecord (t : Nat) (payload : List Nat) : List Nat :=
  encodeVarNum t ++ encodeVarNum payload.length ++ payload

/-- Modelled from the spec: the payload of an unsigned 64-bit value is its
narrowest 1/2/4/8-byte big-endian form (section 4.4). -/
def uintPayload (n : Nat) : List Nat :=
  if n ≤ 255 then beBytes 1 n
  else if n ≤ 65535 then beBytes 2 n
  else if n ≤ 4294967295 then beBytes 4 n
  else beBytes 8 n

mutual
/-- Modelled from the spec: the encoder's per-field dispatch (section 4.4;
`encode.go` is not under `src/`).  A boolean emits a zero-length record when
true and nothing when false; an unsigned 64-bit value emits its narrowest
big-endian payload; byte sequences and text emit their bytes verbatim; a
repeated field emits one record per element under the field's type number;
a composite emits the concatenation of its non-implicit fields' records as
payload of one record; the leaf override (`MarshalBinary` of `special`,
which returns `[]byte\x7bs.F\x7d`) takes precedence for the types that
supply it; a reference encodes its referent.  The `uint8` shape has no
encode rule (the spec's UnsupportedShape error); it is only ever reached
behind an implicit field here, so it emits nothing. -/
def encodeField : Nat → Value → List Nat
  | t, .bool b => if b then tlvRecord t [] else []
  | t, .uint64 n => tlvRecord t (uintPayload n)
  | _, .uint8 _ => []
  | t, .bytes bs => tlvRecord t bs
  | t, .str s => tlvRecord t s
  | t, .slice _ es => encodeElems t es
  | t, .ptr _ r =>
    match r with
    | .some v => encodeField t v
    | .none => []
  | t, .strct fields => tlvRecord t (encodeFieldsPayload fields)
  | t, .special f => tlvRecord t [f]
  | t, .ptrSpecial r => tlvRecord t [r.getD 0]
/-- Modelled from the spec: one record per element of a repeated field, in
sequence order, all under the field's type number. -/
def encodeElems : Nat → ValueList → List Nat
  | _, .nil => []
  | t, .cons v rest => encodeField t v ++ encodeElems t rest
/-- Modelled from the spec: the payload of a composite is the concatenation
of the records of its non-implicit fields in declaration order. -/
def encodeFieldsPayload : ValueFields → List Nat
  | .nil => []
  | .cons tag v rest =>
    (if (tagOf tag).implicit then [] else encodeField (tagOf tag).typ v)
      ++ encodeFieldsPayload rest
end

/-- Modelled from the spec: `Marshal` serializes the value as one outer TLV
record of the given type (`encode.go` is not under `src/`). -/
def Marshal (v : Value) (t : Nat) : List Nat :=
  encodeField t v

/-! ## The composite type of `encode_test.go`

The struct `test` from the test file, with the tags written there:
`Num []uint64 "tlv:255"`, `String string "tlv:65535"`,
`Byte []byte "tlv:4294967295"`, `Bool bool "tlv:18446744073709551615"`,
`Special special "tlv:1"`, and the untagged, unexported field
`unexported uint8`. -/

def numTag : Option Tag := some ⟨255, false, false⟩
def strTag : Option Tag := some ⟨65535, false, false⟩
def byteTag : Option Tag := some ⟨4294967295, false, false⟩
def boolTag : Option Tag := some ⟨18446744073709551615, false, false⟩
def specialFieldTag : Option Tag := some ⟨1, false, false⟩

def testShapeFields : ShapeFields :=
  .cons numTag (.slice .uint64)
    (.cons strTag .str
      (.cons byteTag .bytes
        (.cons boolTag .bool
          (.cons specialFieldTag .special
            (.cons none .uint8 .nil)))))

def testShape : Shape := .strct testShapeFields

/-- The bytes of the Go string `"string"`. -/
def stringBytes : List Nat := [115, 116, 114, 105, 110, 103]

/-- The value `v1` built in `TestTLV`:
`Num = [2^8-1, 2^16-1, 2^32-1, 2^64-1]`, `String = "string"`,
`Byte = [1, 2, 3]`, `Bool = true`, `Special = special\x7bF: 1\x7d`. -/
def v1 : Value :=
  .strct
    (.cons numTag
      (.slice .uint64
        (.cons (.uint64 255)
          (.cons (.uint64 65535)
            (.cons (.uint64 4294967295)
              (.cons (.uint64 18446744073709551615) .nil)))))
      (.cons strTag (.str stringBytes)
        (.cons byteTag (.bytes [1, 2, 3])
          (.cons boolTag (.bool true)
            (.cons specialFieldTag (.special 1)
              (.cons none (.uint8 0) .nil))))))

/-! ## Stream-consumption lemmas -/

theorem readFull_ok_length {n : Nat} {bs w rest : List Nat}
    (h : readFull n bs = (.ok w, rest)) : rest.length ≤ bs.length := by
  unfold readFull at h
  split at h
  · cases h
    simp
  · cases h

theorem readVarNum_ok_length {bs rest : List Nat} {x : Nat}
    (h : readVarNum bs = (.ok x, rest)) : rest.length < bs.length := by
  cases bs with
  | nil => simp [readVarNum] at h
  | cons b tl =>
    simp only [readVarNum] at h
    split at h
    · cases hF : readFull 8 tl with
      | mk r rest' =>
        rw [hF] at h
        cases r with
        | ok w => cases h; exact Nat.lt_succ_of_le (readFull_ok_length hF)
        | error e => cases h
    · split at h
      · cases hF : readFull 4 tl with
        | mk r rest' =>
          rw [hF] at h
          cases r with
          | ok w => cases h; exact Nat.lt_succ_of_le (readFull_ok_length hF)
          | error e => cases h
      · split at h
        · cases hF : readFull 2 tl with
          | mk r rest' =>
            rw [hF] at h
            cases r with
            | ok w => cases h; exact Nat.lt_succ_of_le (readFull_ok_length hF)
            | error e => cases h
        · cases h
          exact Nat.lt_succ_of_le (Nat.le_refl _)

theorem readTLV_ok_length {bs rest v : List Nat} {t : Nat}
    (h : readTLV bs = (.ok (t, v), rest)) : rest.length < bs.length := by
  unfold readTLV at h
  cases h1 : readVarNum bs with
  | mk r1 bs1 =>
    cases r1 with
    | error e => simp only [h1] at h; simp at h
    | ok t0 =>
      simp only [h1] at h
      cases h2 : readVarNum bs1 with
      | mk r2 bs2 =>
        cases r2 with
        | error e => simp only [h2] at h; simp at h
        | ok l =>
          simp only [h2] at h
          split at h
          · simp at h
          · cases hF : readFull l bs2 with
            | mk r3 rest' =>
              cases r3 with
              | ok w =>
                simp only [hF] at h
                cases h
                exact Nat.lt_of_le_of_lt (readFull_ok_length hF)
                  (Nat.lt_trans (readVarNum_ok_length h2) (readVarNum_ok_length h1))
              | error e => simp only [hF] at h; simp at h

/-- Once at least one record has been decoded, the loop of `decode` never
reports an error: every break path runs the source's `if once \x7b err = nil \x7d`. -/
theorem decodeLoop_once_no_error (fuel : Nat) :
    ∀ (bs : List Nat) (value : Value) (t : Nat), bs.length < fuel →
      (decodeLoop fuel bs value t true).1 = none := by
  induction fuel with
  | zero => exact fun bs value t h => absurd h (Nat.not_lt_zero _)
  | succ n ih =>
    intro bs value t h
    simp only [decodeLoop]
    split
    · rfl
    · cases hR : readTLV bs with
      | mk r bs' =>
        cases r with
        | error e => simp [hR]
        | ok tv =>
          obtain ⟨t0, v⟩ := tv
          simp only [hR]
          cases hD : decodeValue n v value with
          | mk e? value' =>
            cases e? with
            | some e => simp
            | none =>
              by_cases hr : isRepeated value'
              · simp only [hr, if_true]
                exact ih bs' value' t
                  (Nat.lt_of_lt_of_le (readTLV_ok_length hR) (Nat.le_of_lt_succ h))
              · simp [hr]


/-! ## Claim C1 -/

/-- The value the model of `TestTLV` decodes back: identical to `v1` except
that `Special.F` is `0` instead of `1`. -/
def v2 : Value :=
  .strct
    (.cons numTag
      (.slice .uint64
        (.cons (.uint64 255)
          (.cons (.uint64 65535)
            (.cons (.uint64 4294967295)
              (.cons (.uint64 18446744073709551615) .nil)))))
      (.cons strTag (.str stringBytes)
        (.cons byteTag (.bytes [1, 2, 3])
          (.cons boolTag (.bool true)
            (.cons specialFieldTag (.special 0)
              (.cons none (.uint8 0) .nil))))))

/-- Claim C1: decoding the bytes produced by encoding a composite value
under outer type `t` is claimed to yield a structurally equal value for
every combination of supported field kinds, including the override-leaf
field — this is exactly the assertion of `TestTLV`.  The code refutes it:
on `TestTLV`'s own value `v1` the round trip succeeds but returns `v2`,
which differs from `v1` in the override-leaf field (`Special.F` decodes to
`0`, not `1`), because `decodeValue`'s `value.Interface()` assertion to
`encoding.BinaryUnmarshaler` fails for the non-pointer `special` value
(its `UnmarshalBinary` has a pointer receiver), so the payload is handled
by struct dispatch and the untagged field `F` is skipped. -/
theorem testTLV_roundtrip_fails :
    Unmarshal 100 (Marshal v1 1) (.ptr testShape (.some (zero testShape))) 1
      = (none, .ptr testShape (.some v2), []) ∧ v2 ≠ v1 :=
  ⟨by rfl, by decide⟩

/-! ## Claim C2 -/

/-- Claim C2 counterexample: a record declaring length 8801 (> 8800) does
not always abort the decode.  Here it appears as the second record of a
repeated field: `decode` has already consumed one element, so the source's
`if once \x7b err = nil \x7d` swallows `ErrPacketTooLarge` and the decode
returns without error — the claim says this decode fails with the
size-exceeded error. -/
theorem size_error_swallowed :
    decode 20 [7, 1, 5, 7, 253, 34, 97] (.slice .uint64 .nil) 7
      = (none, .slice .uint64 (.cons (.uint64 5) .nil), []) := by rfl

/-- Claim C2 (amended): whenever the declared length of a record exceeds
8800, `readTLV` itself fails with `ErrPacketTooLarge` before reading any
payload byte — the stream is left exactly where the length field ended.
(The error is however not fatal for every enclosing decode: it is swallowed
after at least one element of a repeated field and under optional fields.) -/
theorem readTLV_size_exceeded {bs bs1 bs2 : List Nat} {t l : Nat}
    (h1 : readVarNum bs = (.ok t, bs1)) (h2 : readVarNum bs1 = (.ok l, bs2))
    (h3 : maxSize < l) :
    readTLV bs = (.error .packetTooLarge, bs2) := by
  unfold readTLV
  simp [h1, h2, h3]

/-- Witness for `readTLV_size_exceeded`: a record of type 7 declaring
length 8801, with no payload following. -/
theorem readTLV_size_exceeded_witness :
    readTLV [7, 253, 34, 97] = (.error .packetTooLarge, []) :=
  readTLV_size_exceeded (by rfl) (by rfl) (by decide)

/-! ## Claim C3 -/

/-- Claim C3: the repeated-field decode policy.  First, when the peeked
type does not match at entry (zero elements decoded), `decode` propagates
`ErrUnexpectedType` to the caller, leaving the value and stream untouched.
Second, once at least one element has been decoded (`once = true`), the
loop never reports an error, whatever ends it — in particular a peek
mismatch or the end of the stream.  Third, after a matching peek, a
consumed record and a successfully decoded-and-appended element of a
repeated value, the loop continues on the remaining stream with
`once = true`. -/
theorem decode_repeated_field_policy :
    (∀ (fuel : Nat) (bs : List Nat) (value : Value) (t : Nat),
        peek bs ≠ some t →
        decode (fuel + 1) bs value t = (some .unexpectedType, value, bs)) ∧
    (∀ (fuel : Nat) (bs : List Nat) (value : Value) (t : Nat),
        bs.length < fuel → (decodeLoop fuel bs value t true).1 = none) ∧
    (∀ (fuel : Nat) (bs bs' payload : List Nat) (e : Shape) (es : ValueList)
        (t t0 : Nat) (es' : Value),
        peek bs = some t →
        readTLV bs = (.ok (t0, payload), bs') →
        decodeValue fuel payload (.slice e es) = (none, es') →
        isRepeated es' = true →
        decode (fuel + 1) bs (.slice e es) t = decodeLoop fuel bs' es' t true) := by
  refine ⟨?_, ?_, ?_⟩
  · intro fuel bs value t h
    simp [decode, decodeLoop, h]
  · exact fun fuel => decodeLoop_once_no_error fuel
  · intro fuel bs bs' payload e es t t0 es' h1 h2 h3 h4
    simp [decode, decodeLoop, h1, h2, h3, h4]

/-- Witness for `decode_repeated_field_policy`: a mismatching stream
propagates the type error; a one-element stream of type 7 decodes into a
`[]uint64` with the loop ending silently; the loop steps once on
`[7, 1, 5]` appending the element 5. -/
theorem decode_repeated_field_policy_witness :
    decode 4 [9, 0] (.uint64 0) 7 = (some .unexpectedType, .uint64 0, [9, 0]) ∧
    (decodeLoop 4 [7, 1, 5] (.slice .uint64 .nil) 7 true).1 = none ∧
    decode 3 [7, 1, 5] (.slice .uint64 .nil) 7
      = decodeLoop 2 [] (.slice .uint64 (.cons (.uint64 5) .nil)) 7 true :=
  ⟨decode_repeated_field_policy.1 3 [9, 0] (.uint64 0) 7 (by decide),
   decode_repeated_field_policy.2.1 4 [7, 1, 5] (.slice .uint64 .nil) 7 (by decide),
   decode_repeated_field_policy.2.2 2 [7, 1, 5] [] [5] .uint64 .nil 7 7
     (.slice .uint64 (.cons (.uint64 5) .nil)) (by rfl) (by rfl) (by rfl) (by rfl)⟩

/-! ## Claim C4 -/

/-- Claim C4 counterexample: a 3-byte payload decoded into a `uint64` is
claimed to be a decode error; the code instead succeeds and stores `0`
(the `switch` in `decodeUint64` falls through to `return 0` and
`decodeValue` never checks). -/
theorem uint64_length3_no_error :
    decodeValue 5 [1, 2, 3] (.uint64 7) = (none, .uint64 0) := by rfl

/-- Claim C4 (amended): payloads of byte length 1, 2, 4 or 8 are
reinterpreted big-endian (widened to 64 bits); every other byte length
yields the value `0`, with no error either way. -/
theorem decodeUint64_widths :
    (∀ b : List Nat, b.length = 1 ∨ b.length = 2 ∨ b.length = 4 ∨ b.length = 8 →
        decodeUint64 b = beUint b) ∧
    (∀ b : List Nat, ¬(b.length = 1 ∨ b.length = 2 ∨ b.length = 4 ∨ b.length = 8) →
        decodeUint64 b = 0) ∧
    (∀ (fuel : Nat) (b : List Nat) (n : Nat),
        decodeValue (fuel + 1) b (.uint64 n) = (none, .uint64 (decodeUint64 b))) := by
  refine ⟨?_, ?_, ?_⟩
  · intro b h
    unfold decodeUint64
    rcases h with h | h | h | h <;> simp [h]
  · intro b h
    push_neg at h
    obtain ⟨h1, h2, h4, h8⟩ := h
    simp [decodeUint64, h1, h2, h4, h8]
  · intro fuel b n
    rfl

/-- Witness for `decodeUint64_widths` at lengths 2 and 3. -/
theorem decodeUint64_widths_witness :
    decodeUint64 [1, 2] = beUint [1, 2] ∧
    decodeUint64 [1, 2, 3] = 0 ∧
    decodeValue 4 [1, 2] (.uint64 9) = (none, .uint64 (decodeUint64 [1, 2])) :=
  ⟨decodeUint64_widths.1 [1, 2] (by decide),
   decodeUint64_widths.2.1 [1, 2, 3] (by decide),
   decodeUint64_widths.2.2 3 [1, 2] 9⟩

/-! ## Claim C5 -/

/-- Claim C5 counterexample: after the marker byte 253 the code reads two
additional bytes, not one — the claim's "0/1/3/7 additional bytes" table
says one.  Here the bytes 0 and 7 are consumed (big-endian value 7) and
only `[99]` remains; under the claimed table the remainder would be
`[7, 99]`. -/
theorem readVarNum_253_consumes_two :
    readVarNum [253, 0, 7, 99] = (.ok 7, [99]) := by rfl

/-- Claim C5 (amended): `readVarNum` reads the marker/first byte, then 0,
2, 4 or 8 additional bytes (first byte up to 252 is the literal value; 253
means a 2-byte big-endian value follows, 254 a 4-byte one, 255 an 8-byte
one), reassembles big-endian, and fails with the propagated stream error
when the read is short. -/
theorem readVarNum_marker_table :
    (readVarNum [] = (.error .io, [])) ∧
    (∀ (b : Nat) (rest : List Nat), b ≤ 252 → readVarNum (b :: rest) = (.ok b, rest)) ∧
    (∀ rest : List Nat, 2 ≤ rest.length →
        readVarNum (253 :: rest) = (.ok (beUint (rest.take 2)), rest.drop 2)) ∧
    (∀ rest : List Nat, rest.length < 2 → readVarNum (253 :: rest) = (.error .io, [])) ∧
    (∀ rest : List Nat, 4 ≤ rest.length →
        readVarNum (254 :: rest) = (.ok (beUint (rest.take 4)), rest.drop 4)) ∧
    (∀ rest : List Nat, rest.length < 4 → readVarNum (254 :: rest) = (.error .io, [])) ∧
    (∀ rest : List Nat, 8 ≤ rest.length →
        readVarNum (255 :: rest) = (.ok (beUint (rest.take 8)), rest.drop 8)) ∧
    (∀ rest : List Nat, rest.length < 8 → readVarNum (255 :: rest) = (.error .io, [])) := by
  refine ⟨by rfl, ?_, ?_, ?_, ?_, ?_, ?_, ?_⟩
  · intro b rest h
    have h1 : ¬ b = 255 := by omega
    have h2 : ¬ b = 254 := by omega
    have h3 : ¬ b = 253 := by omega
    simp [readVarNum, h1, h2, h3]
  · intro rest h
    simp [readVarNum, readFull, h]
  · intro rest h
    have : ¬ 2 ≤ rest.length := by omega
    simp [readVarNum, readFull, this]
  · intro rest h
    simp [readVarNum, readFull, h]
  · intro rest h
    have : ¬ 4 ≤ rest.length := by omega
    simp [readVarNum, readFull, this]
  · intro rest h
    simp [readVarNum, readFull, h]
  · intro rest h
    have : ¬ 8 ≤ rest.length := by omega
    simp [readVarNum, readFull, this]

/-- Witness for `readVarNum_marker_table`, one instance per marker case. -/
theorem readVarNum_marker_table_witness :
    readVarNum [9, 4] = (.ok 9, [4]) ∧
    readVarNum [253, 1, 0, 5] = (.ok (beUint [1, 0]), [5]) ∧
    readVarNum [253, 1] = (.error .io, []) ∧
    readVarNum [254, 1, 0, 0, 0, 5] = (.ok (beUint [1, 0, 0, 0]), [5]) ∧
    readVarNum [254, 1] = (.error .io, []) ∧
    readVarNum [255, 1, 0, 0, 0, 0, 0, 0, 0, 5]
      = (.ok (beUint [1, 0, 0, 0, 0, 0, 0, 0]), [5]) ∧
    readVarNum [255, 1] = (.error .io, []) :=
  ⟨readVarNum_marker_table.2.1 9 [4] (by decide),
   readVarNum_marker_table.2.2.1 [1, 0, 5] (by decide),
   readVarNum_marker_table.2.2.2.1 [1] (by decide),
   readVarNum_marker_table.2.2.2.2.1 [1, 0, 0, 0, 5] (by decide),
   readVarNum_marker_table.2.2.2.2.2.1 [1] (by decide),
   readVarNum_marker_table.2.2.2.2.2.2.1 [1, 0, 0, 0, 0, 0, 0, 0, 5] (by decide),
   readVarNum_marker_table.2.2.2.2.2.2.2 [1] (by decide)⟩

/-! ## Claim C6 -/

/-- Claim C6: when the expected type number of an optional field does not
appear at its position (failed or mismatching peek), the composite decode
leaves the field at its current (default) value, consumes nothing for it,
and continues with the remaining fields on the unchanged stream — so the
composite succeeds exactly when the remaining fields do.  When the same
field is required instead, the whole composite decode aborts with the
type-mismatch error. -/
theorem optional_field_absent_policy :
    (∀ (fuel : Nat) (bs : List Nat) (t : Nat) (v : Value) (rest : ValueFields),
        peek bs ≠ some t →
        decodeStruct (fuel + 2) bs (.cons (some ⟨t, true, false⟩) v rest)
          = ((decodeStruct (fuel + 1) bs rest).1,
             .cons (some ⟨t, true, false⟩) v (decodeStruct (fuel + 1) bs rest).2.1,
             (decodeStruct (fuel + 1) bs rest).2.2)) ∧
    (∀ (fuel : Nat) (bs : List Nat) (t : Nat) (v : Value) (rest : ValueFields),
        peek bs ≠ some t →
        decodeStruct (fuel + 2) bs (.cons (some ⟨t, false, false⟩) v rest)
          = (some .unexpectedType, .cons (some ⟨t, false, false⟩) v rest, bs)) := by
  constructor
  · intro fuel bs t v rest h
    show decodeStruct (fuel + 1 + 1) bs _ = _
    simp only [decodeStruct, tagOf]
    simp only [decodeLoop]
    simp [h]
  · intro fuel bs t v rest h
    show decodeStruct (fuel + 1 + 1) bs _ = _
    simp only [decodeStruct, tagOf]
    simp only [decodeLoop]
    simp [h]

/-- Witness for `optional_field_absent_policy`: the stream holds one record
of type 9 while the first field expects type 7.  Optional: the field stays
`0` and the following field of type 9 still decodes to 5.  Required: the
whole struct decode aborts with `ErrUnexpectedType`. -/
theorem optional_field_absent_policy_witness :
    decodeStruct 5 [9, 1, 5] (.cons (some ⟨7, true, false⟩) (.uint64 0)
        (.cons (some ⟨9, false, false⟩) (.uint64 0) .nil))
      = (none, .cons (some ⟨7, true, false⟩) (.uint64 0)
          (.cons (some ⟨9, false, false⟩) (.uint64 5) .nil), []) ∧
    decodeStruct 3 [9, 1, 5] (.cons (some ⟨7, false, false⟩) (.uint64 0)
        (.cons (some ⟨9, false, false⟩) (.uint64 0) .nil))
      = (some .unexpectedType, .cons (some ⟨7, false, false⟩) (.uint64 0)
          (.cons (some ⟨9, false, false⟩) (.uint64 0) .nil), [9, 1, 5]) :=
  ⟨optional_field_absent_policy.1 3 [9, 1, 5] 7 (.uint64 0)
      (.cons (some ⟨9, false, false⟩) (.uint64 0) .nil) (by decide),
   optional_field_absent_policy.2 1 [9, 1, 5] 7 (.uint64 0)
      (.cons (some ⟨9, false, false⟩) (.uint64 0) .nil) (by decide)⟩

/-! ## Claim C7 -/

/-- Claim C7: a field whose descriptor is implicit is skipped entirely by
the composite decode: no byte of the stream is read for it, its value is
unchanged, and the remaining fields are processed in declaration order on
the very same stream. -/
theorem implicit_field_skipped :
    ∀ (fuel : Nat) (bs : List Nat) (tag : Option Tag) (v : Value) (rest : ValueFields),
      (tagOf tag).implicit = true →
      decodeStruct (fuel + 1) bs (.cons tag v rest)
        = ((decodeStruct fuel bs rest).1,
           .cons tag v (decodeStruct fuel bs rest).2.1,
           (decodeStruct fuel bs rest).2.2) := by
  intro fuel bs tag v rest h
  simp only [decodeStruct, h]
  simp

/-- Witness for `implicit_field_skipped`: an untagged (hence implicit)
`uint8` field is skipped; nothing of the stream `[3, 0]` is consumed. -/
theorem implicit_field_skipped_witness :
    decodeStruct 2 [3, 0] (.cons none (.uint8 7) .nil)
      = (none, .cons none (.uint8 7) .nil, [3, 0]) :=
  implicit_field_skipped 1 [3, 0] none (.uint8 7) .nil (by rfl)

/-! ## Claim C8 -/

/-- Claim C8: decode is claimed to invoke a type's own binary-decode
operation whenever the type supplies one, with precedence over all
structural dispatch, also nested inside composites.  The code refutes this
for the repository's own override type: `special` supplies
`UnmarshalBinary` through a pointer receiver, so for a (non-pointer)
`special` value the `value.Interface()` assertion fails and the payload
`[1]` is handled by structural struct dispatch, leaving `F` untouched at
`0` — while `UnmarshalBinary` itself would set `F` to `1`, as it does when
`decodeValue` is reached with a `\x2aspecial` value, for which the
assertion does succeed. -/
theorem special_override_not_invoked :
    decodeValue 5 [1] (.special 0) = (none, .special 0) ∧
    specialUnmarshalBinary [1] 0 = 1 ∧
    decodeValue 5 [1] (.ptrSpecial (some 0)) = (none, .ptrSpecial (some 1)) :=
  ⟨by rfl, by rfl, by rfl⟩

/-! ## Claim C9 -/

/-- A pointer-to-struct shape whose struct has one optional `uint64`
field of type number 7. -/
def optUintShape : Shape := .strct (.cons (some ⟨7, true, false⟩) .uint64 .nil)

/-- An existing referent with the optional field already set to 5. -/
def oldReferent : Value := .strct (.cons (some ⟨7, true, false⟩) (.uint64 5) .nil)

/-- Claim C9 counterexample: decoding into a pointer whose referent is
already present is claimed to decode into the existing referent.  The code
instead allocates a fresh zero referent (the `value.CanSet()` branch always
runs for the settable values of this traversal), decodes into that, and
replaces the old one: decoding an empty payload into a pointer to a struct
with an optional field set to 5 yields a referent with the field reset to
0, not the existing referent. -/
theorem ptr_referent_replaced :
    decodeValue 5 [] (.ptr optUintShape (.some oldReferent))
      = (none, .ptr optUintShape
          (.some (.strct (.cons (some ⟨7, true, false⟩) (.uint64 0) .nil)))) ∧
    Value.strct (.cons (some ⟨7, true, false⟩) (.uint64 0) .nil) ≠ oldReferent :=
  ⟨by rfl, by decide⟩

/-- Claim C9 (amended): decoding into a (settable) reference always
allocates a fresh zero referent and decodes the record into it, replacing
whatever referent was there: on success the result is independent of the
prior referent. -/
theorem ptr_decode_ignores_prior_referent :
    ∀ (fuel : Nat) (v : List Nat) (e : Shape) (r1 r2 : OptValue),
      (decodeValue (fuel + 1) v (.ptr e r1)).1 = none →
      decodeValue (fuel + 1) v (.ptr e r1) = decodeValue (fuel + 1) v (.ptr e r2) := by
  intro fuel v e r1 r2 h
  simp only [decodeValue] at h ⊢
  cases hI : decodeValue fuel v (zero e) with
  | mk e? elem =>
    cases e? with
    | some err => rw [hI] at h; simp at h
    | none => simp

/-- Witness for `ptr_decode_ignores_prior_referent`: decoding `[5]` into a
nil `\x2auint64` and into one already pointing at 9 gives the same result. -/
theorem ptr_decode_ignores_prior_referent_witness :
    decodeValue 4 [5] (.ptr .uint64 .none)
      = decodeValue 4 [5] (.ptr .uint64 (.some (.uint64 9))) :=
  ptr_decode_ignores_prior_referent 3 [5] .uint64 .none (.some (.uint64 9)) (by rfl)

/-! ## Claim C10 -/

/-- Claim C10: a nested composite record consumes exactly its declared
length from the outer stream — `readTLV` takes precisely `l` payload bytes
after the two length fields, leaving the rest — and the nested decode runs
on exactly those payload bytes: whatever part of the payload the nested
fields leave unconsumed is silently discarded by `decodeValue`, which
returns without error whenever the nested `decodeStruct` does. -/
theorem nested_record_scoping :
    (∀ (bs bs1 bs2 : List Nat) (t l : Nat),
        readVarNum bs = (.ok t, bs1) → readVarNum bs1 = (.ok l, bs2) →
        l ≤ maxSize → l ≤ bs2.length →
        readTLV bs = (.ok (t, bs2.take l), bs2.drop l)) ∧
    (∀ (fuel : Nat) (v : List Nat) (fields fields' : ValueFields) (leftover : List Nat),
        decodeStruct fuel v fields = (none, fields', leftover) →
        decodeValue (fuel + 1) v (.strct fields) = (none, .strct fields')) := by
  constructor
  · intro bs bs1 bs2 t l h1 h2 h3 h4
    have h5 : ¬ maxSize < l := Nat.not_lt.mpr h3
    unfold readTLV
    simp [h1, h2, h5, readFull, h4]
  · intro fuel v fields fields' leftover h
    simp only [decodeValue]
    rw [h]

/-- Witness for `nested_record_scoping`: the record `[7, 1, 9]` consumes
exactly one payload byte leaving `[42]`, and a nested struct whose single
field leaves the trailing byte 42 unread still decodes without error. -/
theorem nested_record_scoping_witness :
    readTLV [7, 1, 9, 42] = (.ok (7, [9]), [42]) ∧
    decodeValue 11 [7, 1, 9, 42]
        (.strct (.cons (some ⟨7, false, false⟩) (.uint64 0) .nil))
      = (none, .strct (.cons (some ⟨7, false, false⟩) (.uint64 9) .nil)) :=
  ⟨nested_record_scoping.1 [7, 1, 9, 42] [1, 9, 42] [9, 42] 7 1
      (by rfl) (by rfl) (by decide) (by decide),
   nested_record_scoping.2 10 [7, 1, 9, 42]
      (.cons (some ⟨7, false, false⟩) (.uint64 0) .nil)
      (.cons (some ⟨7, false, false⟩) (.uint64 9) .nil) [42] (by rfl)⟩

end TLV
